import Mathlib

/-!
Verification of the open-data ingestion frontend against its specification.

The definitions below are a shallow embedding of the TypeScript frontend:
the connection wizard's ingestion-start handler and its polling loop, the
visualization preset recommender, the chart renderer, and the dashboard's
summary/table helpers.  JavaScript numbers are modelled as rationals, JSON
records as ordered association lists, and the browser APIs that the code
calls but does not define (Date.parse, Number(...), toLowerCase) are taken
as parameters of the embedding.
-/

/-- A scalar value inside a normalized JSON record. -/
inductive JsonVal
  | vNull
  | vBool (b : Bool)
  | vNum (q : ℚ)
  | vStr (s : String)
  | vDate (iso : String)
  deriving DecidableEq

/-- A normalized record: an ordered mapping from column name to value. -/
abbrev RecordJ := List (String × JsonVal)

/-- Per-column numeric summary, as in the NumericSummary response type. -/
structure NumericSummary where
  mean : Option ℚ
  minimum : Option ℚ
  maximum : Option ℚ
  deriving DecidableEq

/-- A rendered chart artifact, as in the VisualizationArtifact response type. -/
structure VisualizationArtifact where
  column : String
  chart_type : String
  title : String
  image_base64 : String
  description : Option String
  deriving DecidableEq

/-- One entry of schema_details. -/
structure SchemaDetail where
  column : String
  dtype : String
  non_null : Nat
  null_count : Nat
  deriving DecidableEq

/-- The IngestionSummary response shape consumed by the dashboard. -/
structure IngestionSummary where
  record_count : Option Int
  schema_fields : List String
  sample_records : List RecordJ
  numeric_summary : List (String × NumericSummary)
  schema_details : List SchemaDetail
  categorical_summary : List (String × List (String × Nat))
  descriptive_stats : List (String × List (String × Option ℚ))
  numeric_histograms : List (String × List (String × Nat))
  visualizations : Option (List VisualizationArtifact)
  deriving DecidableEq

/-- Job status union of the IngestionJobResponse type. -/
inductive JobStatus
  | pending
  | running
  | completed
  | failed
  deriving DecidableEq

/-- Whether a job status is terminal (completed or failed). -/
def JobStatus.isTerminal : JobStatus → Bool
  | .completed => true
  | .failed => true
  | _ => false

/-- The IngestionJobResponse snapshot returned by the ingestion endpoints. -/
structure IngestionJobResponse where
  job_id : String
  connection_id : String
  status : JobStatus
  created_at : String
  started_at : Option String
  finished_at : Option String
  message : Option String
  errors : List String
  summary : Option IngestionSummary
  deriving DecidableEq

/-- A saved connection, as in the ConnectionResponse type. -/
structure ConnectionResponse where
  id : String
  portal_name : String
  dataset_id : String
  last_ingested_at : Option String
  last_ingestion_summary : Option IngestionSummary
  deriving DecidableEq

/-! ### The client polling loop (connection wizard) -/

/-- HTTP method of a request issued by the wizard. -/
inductive Method
  | get
  | post
  deriving DecidableEq

/-- Endpoints the ingestion flow of the wizard can address. -/
inductive Endpoint
  | ingestStart (connectionId : String)
  | jobStatusEp (connectionId : String) (jobId : String)
  deriving DecidableEq

/-- Request body payloads of the ingestion flow. -/
inductive ReqBody
  | forceRefresh (b : Bool)
  deriving DecidableEq

/-- An HTTP request issued by the client. -/
structure HttpRequest where
  method : Method
  endpoint : Endpoint
  body : Option ReqBody
  deriving DecidableEq

/-- Observable client events: timer delays and outgoing requests. -/
inductive ClientEvent
  | delay (ms : Nat)
  | request (r : HttpRequest)
  deriving DecidableEq

/-- The GET request polling one job status snapshot. -/
def getStatusReq (connectionId jobId : String) : HttpRequest :=
  ⟨.get, .jobStatusEp connectionId jobId, none⟩

/-- The ingestState values of the wizard component. -/
inductive IngestState
  | idle
  | starting
  | polling
  | completed
  | failed
  | timeout
  deriving DecidableEq

/-- Outcome of one status GET, from the client's point of view: a parsed
snapshot, a non-ok HTTP response, or a thrown fetch/parse error. -/
inductive PollResult
  | ok (job : IngestionJobResponse)
  | httpError
  | exn
  deriving DecidableEq

/-- Aggregate observable outcome of the ingestion flow: the event trace,
the final ingestState, the final ingestError, the last jobStatus snapshot
stored, and the jobs handed to the onJobCompleted callback. -/
structure PollOutcome where
  events : List ClientEvent
  finalIngestState : IngestState
  ingestError : Option String
  lastJob : Option IngestionJobResponse
  completions : List IngestionJobResponse
  deriving DecidableEq

/-- The body of pollJobStatus from the given attempt index with the given
remaining fuel (the source iterates attempt over 0..<12): each iteration
waits 750ms, issues the status GET, and reacts to the response. -/
def pollFrom (responses : Nat → PollResult) (connectionId jobId : String) :
    Nat → Nat → Option IngestionJobResponse → PollOutcome
  | _, 0, j0 =>
      { events := []
        finalIngestState := .timeout
        ingestError := some "Ingestion did not finish in the expected time."
        lastJob := j0
        completions := [] }
  | attempt, fuel + 1, j0 =>
      let ev := ClientEvent.delay 750
      let rq := ClientEvent.request (getStatusReq connectionId jobId)
      match responses attempt with
      | .exn =>
          { events := [ev, rq]
            finalIngestState := .failed
            ingestError := some "Error while checking ingestion status."
            lastJob := j0
            completions := [] }
      | .httpError =>
          { events := [ev, rq]
            finalIngestState := .failed
            ingestError := some "Unable to check ingestion status."
            lastJob := j0
            completions := [] }
      | .ok job =>
          match job.status with
          | .completed =>
              { events := [ev, rq]
                finalIngestState := .completed
                ingestError := none
                lastJob := some job
                completions := [job] }
          | .failed =>
              { events := [ev, rq]
                finalIngestState := .failed
                ingestError := some (job.message.getD "Data ingestion failed.")
                lastJob := some job
                completions := [job] }
          | _ =>
              let rest := pollFrom responses connectionId jobId (attempt + 1) fuel (some job)
              { rest with events := ev :: rq :: rest.events }

/-- pollJobStatus(connectionId, jobId): 12 bounded attempts starting at 0.
The extra argument is the jobStatus state already stored when polling
starts. -/
def pollJobStatus (responses : Nat → PollResult) (connectionId jobId : String)
    (j0 : Option IngestionJobResponse) : PollOutcome :=
  pollFrom responses connectionId jobId 0 12 j0

/-- Outcome of the initial POST that starts ingestion, from the client's
point of view. -/
inductive StartResult
  | ok (job : IngestionJobResponse)
  | httpErrorDetail (detail : Option String)
  | exn (msg : Option String)
  deriving DecidableEq

/-- handleIngestion: fails locally when no connection id is saved;
otherwise POSTs the ingestion-start request with body
force_refresh set to false and, on success, polls the returned job. -/
def handleIngestion (connectionId : Option String) (startResult : StartResult)
    (responses : Nat → PollResult) : PollOutcome :=
  match connectionId with
  | none =>
      { events := []
        finalIngestState := .failed
        ingestError := some "Save the connection before running ingestion."
        lastJob := none
        completions := [] }
  | some cid =>
      let rq := ClientEvent.request ⟨.post, .ingestStart cid, some (.forceRefresh false)⟩
      match startResult with
      | .httpErrorDetail d =>
          { events := [rq]
            finalIngestState := .failed
            ingestError := some (d.getD "Failed to start data ingestion.")
            lastJob := none
            completions := [] }
      | .exn m =>
          { events := [rq]
            finalIngestState := .failed
            ingestError := some (m.getD "An error occurred while ingesting data.")
            lastJob := none
            completions := [] }
      | .ok job =>
          let rest := pollJobStatus responses cid job.job_id (some job)
          { rest with events := rq :: rest.events }

/-- A poll response that succeeded with a non-terminal snapshot. -/
def nonTermOk (responses : Nat → PollResult) (i : Nat) : Prop :=
  ∃ job, responses i = .ok job ∧ job.status.isTerminal = false

/-- Helper: a run of the poll loop in which every response up to the fuel
bound is a successful non-terminal snapshot issues one delay-and-GET pair
per attempt and ends in the local timeout state. -/
theorem pollFrom_timeout (responses : Nat → PollResult) (c j : String) :
    ∀ (f a : Nat) (j0 : Option IngestionJobResponse),
      (∀ i, i < f → nonTermOk responses (a + i)) →
      (pollFrom responses c j a f j0).events
          = List.flatten (List.replicate f
              [ClientEvent.delay 750, ClientEvent.request (getStatusReq c j)])
        ∧ (pollFrom responses c j a f j0).finalIngestState = .timeout
        ∧ (pollFrom responses c j a f j0).ingestError
            = some "Ingestion did not finish in the expected time."
        ∧ (pollFrom responses c j a f j0).completions = []
  | 0, a, j0, _ => by simp [pollFrom]
  | f + 1, a, j0, h => by
      obtain ⟨job, hok, hnt⟩ := h 0 (Nat.succ_pos f)
      rw [Nat.add_zero] at hok
      have ih := pollFrom_timeout responses c j f (a + 1) (some job) (fun i hi => by
        have hx := h (i + 1) (Nat.succ_lt_succ hi)
        rwa [show a + (i + 1) = a + 1 + i by omega] at hx)
      cases hst : job.status with
      | completed => rw [hst] at hnt; simp [JobStatus.isTerminal] at hnt
      | failed => rw [hst] at hnt; simp [JobStatus.isTerminal] at hnt
      | pending =>
          simp only [pollFrom, hok, hst, List.replicate_succ, List.flatten]
          exact ⟨by simp [ih.1], ih.2.1, ih.2.2.1, ih.2.2.2⟩
      | running =>
          simp only [pollFrom, hok, hst, List.replicate_succ, List.flatten]
          exact ⟨by simp [ih.1], ih.2.1, ih.2.2.1, ih.2.2.2⟩

/-- Helper: when the first terminal snapshot arrives at attempt k (with
every earlier attempt a successful non-terminal snapshot), the loop stops
there: k+1 delay-and-GET pairs, the callback receives exactly that job,
and the final state and error text follow the terminal status. -/
theorem pollFrom_terminal (responses : Nat → PollResult) (c j : String)
    (job : IngestionJobResponse) :
    ∀ (k f a : Nat) (j0 : Option IngestionJobResponse), k < f →
      (∀ i, i < k → nonTermOk responses (a + i)) →
      responses (a + k) = .ok job →
      job.status.isTerminal = true →
      (pollFrom responses c j a f j0).events
          = List.flatten (List.replicate (k + 1)
              [ClientEvent.delay 750, ClientEvent.request (getStatusReq c j)])
        ∧ (pollFrom responses c j a f j0).lastJob = some job
        ∧ (pollFrom responses c j a f j0).completions = [job]
        ∧ (job.status = .completed →
            (pollFrom responses c j a f j0).finalIngestState = .completed
            ∧ (pollFrom responses c j a f j0).ingestError = none)
        ∧ (job.status = .failed →
            (pollFrom responses c j a f j0).finalIngestState = .failed
            ∧ (pollFrom responses c j a f j0).ingestError
                = some (job.message.getD "Data ingestion failed."))
  | 0, 0, a, j0, hk, _, _, _ => absurd hk (by omega)
  | 0, f + 1, a, j0, _, _, hterm, hst => by
      rw [Nat.add_zero] at hterm
      cases hc : job.status with
      | pending => rw [hc] at hst; simp [JobStatus.isTerminal] at hst
      | running => rw [hc] at hst; simp [JobStatus.isTerminal] at hst
      | completed =>
          have he : pollFrom responses c j a (f + 1) j0 =
              { events := [ClientEvent.delay 750, ClientEvent.request (getStatusReq c j)]
                finalIngestState := .completed
                ingestError := none
                lastJob := some job
                completions := [job] } := by
            simp [pollFrom, hterm, hc]
          rw [he]
          refine ⟨by simp [List.replicate_succ], rfl, rfl, fun _ => ⟨rfl, rfl⟩, fun h => ?_⟩
          cases h
      | failed =>
          have he : pollFrom responses c j a (f + 1) j0 =
              { events := [ClientEvent.delay 750, ClientEvent.request (getStatusReq c j)]
                finalIngestState := .failed
                ingestError := some (job.message.getD "Data ingestion failed.")
                lastJob := some job
                completions := [job] } := by
            simp [pollFrom, hterm, hc]
          rw [he]
          refine ⟨by simp [List.replicate_succ], rfl, rfl, fun h => ?_, fun _ => ⟨rfl, rfl⟩⟩
          cases h
  | k + 1, 0, a, j0, hk, _, _, _ => absurd hk (by omega)
  | k + 1, f + 1, a, j0, hk, hpre, hterm, hst => by
      obtain ⟨job0, hok0, hnt0⟩ := hpre 0 (Nat.succ_pos k)
      rw [Nat.add_zero] at hok0
      have ih := pollFrom_terminal responses c j job k f (a + 1) (some job0)
        (by omega)
        (fun i hi => by
          have hx := hpre (i + 1) (Nat.succ_lt_succ hi)
          rwa [show a + (i + 1) = a + 1 + i by omega] at hx)
        (by rwa [show a + 1 + k = a + (k + 1) by omega])
        hst
      have he : pollFrom responses c j a (f + 1) j0 =
          { pollFrom responses c j (a + 1) f (some job0) with
            events := ClientEvent.delay 750 :: ClientEvent.request (getStatusReq c j) ::
              (pollFrom responses c j (a + 1) f (some job0)).events } := by
        cases hc0 : job0.status with
        | completed => rw [hc0] at hnt0; simp [JobStatus.isTerminal] at hnt0
        | failed => rw [hc0] at hnt0; simp [JobStatus.isTerminal] at hnt0
        | pending => simp [pollFrom, hok0, hc0]
        | running => simp [pollFrom, hok0, hc0]
      rw [he]
      refine ⟨?_, ?_, ?_, fun h => ?_, fun h => ?_⟩
      · simp [ih.1, List.replicate_succ]
      · exact ih.2.1
      · exact ih.2.2.1
      · exact ih.2.2.2.1 h
      · exact ih.2.2.2.2 h

/-- Helper: every request event the poll loop can ever emit is the status
GET for the polled connection and job. -/
theorem pollFrom_requests (responses : Nat → PollResult) (c j : String) :
    ∀ (f a : Nat) (j0 : Option IngestionJobResponse) (r : HttpRequest),
      ClientEvent.request r ∈ (pollFrom responses c j a f j0).events →
      r = getStatusReq c j
  | 0, a, j0, r => by simp [pollFrom]
  | f + 1, a, j0, r => by
      intro hmem
      cases hres : responses a with
      | exn =>
          simp only [pollFrom, hres] at hmem
          simpa using hmem
      | httpError =>
          simp only [pollFrom, hres] at hmem
          simpa using hmem
      | ok job =>
          cases hc : job.status with
          | completed =>
              simp only [pollFrom, hres, hc] at hmem
              simpa using hmem
          | failed =>
              simp only [pollFrom, hres, hc] at hmem
              simpa using hmem
          | pending =>
              simp [pollFrom, hres, hc] at hmem
              rcases hmem with h | h
              · exact h
              · exact pollFrom_requests responses c j f (a + 1) (some job) r h
          | running =>
              simp [pollFrom, hres, hc] at hmem
              rcases hmem with h | h
              · exact h
              · exact pollFrom_requests responses c j f (a + 1) (some job) r h

/-- Claim C1: if every status GET succeeds and no polled snapshot is
terminal, pollJobStatus issues exactly 12 GET requests to the job-status
endpoint, each preceded by a 750ms delay, and then declares the local
timeout state (with the timeout message) without issuing further
requests. -/
theorem pollLoop_twelve_attempts_then_timeout (responses : Nat → PollResult)
    (c j : String) (j0 : Option IngestionJobResponse)
    (h : ∀ i, i < 12 → nonTermOk responses i) :
    (pollJobStatus responses c j j0).events
        = List.flatten (List.replicate 12
            [ClientEvent.delay 750, ClientEvent.request (getStatusReq c j)])
      ∧ (pollJobStatus responses c j j0).finalIngestState = .timeout
      ∧ (pollJobStatus responses c j j0).ingestError
          = some "Ingestion did not finish in the expected time."
      ∧ (pollJobStatus responses c j j0).completions = [] := by
  have h' : ∀ i, i < 12 → nonTermOk responses (0 + i) := fun i hi => by
    rw [Nat.zero_add]; exact h i hi
  exact pollFrom_timeout responses c j 12 0 j0 h'

/-- A concrete always-pending job snapshot used to instantiate theorems. -/
def jobPendingW : IngestionJobResponse :=
  { job_id := "job-1", connection_id := "conn-1", status := .pending
    created_at := "2024-01-01T00:00:00Z", started_at := none, finished_at := none
    message := none, errors := [], summary := none }

/-- A poll oracle that always returns the pending snapshot. -/
def respPendingW : Nat → PollResult := fun _ => .ok jobPendingW

theorem pollLoop_twelve_attempts_then_timeout_witness :
    (∀ i, i < 12 → nonTermOk respPendingW i)
    ∧ ((pollJobStatus respPendingW "conn-1" "job-1" none).events
          = List.flatten (List.replicate 12
              [ClientEvent.delay 750, ClientEvent.request (getStatusReq "conn-1" "job-1")])
        ∧ (pollJobStatus respPendingW "conn-1" "job-1" none).finalIngestState = .timeout
        ∧ (pollJobStatus respPendingW "conn-1" "job-1" none).ingestError
            = some "Ingestion did not finish in the expected time."
        ∧ (pollJobStatus respPendingW "conn-1" "job-1" none).completions = []) :=
  ⟨fun _ _ => ⟨jobPendingW, rfl, rfl⟩,
    pollLoop_twelve_attempts_then_timeout respPendingW "conn-1" "job-1" none
      (fun _ _ => ⟨jobPendingW, rfl, rfl⟩)⟩

/-- Modelled from the spec: the Job Orchestrator (whose implementation is
not under src) delivers terminal snapshots with either a populated summary
(on completed) or a message that is not the empty string (on failed). -/
def terminalJobContract (j : IngestionJobResponse) : Prop :=
  (j.status = .completed → j.summary.isSome = true)
  ∧ (j.status = .failed → j.message ≠ some "")

/-- Claim C3: the polling loop stops at the first terminal snapshot and
performs no further requests; on completed the completion callback
receives that snapshot; on failed the visible error is the job message
when non-null and otherwise the non-empty default text; hence, for
terminal jobs respecting the orchestrator contract, the consumer ends
with a terminal job carrying a summary or a non-empty failure message. -/
theorem pollLoop_stops_at_first_terminal (responses : Nat → PollResult)
    (c j : String) (j0 : Option IngestionJobResponse)
    (k : Nat) (job : IngestionJobResponse)
    (hk : k < 12)
    (hpre : ∀ i, i < k → nonTermOk responses i)
    (hterm : responses k = .ok job)
    (hst : job.status.isTerminal = true) :
    (pollJobStatus responses c j j0).events
        = List.flatten (List.replicate (k + 1)
            [ClientEvent.delay 750, ClientEvent.request (getStatusReq c j)])
      ∧ (pollJobStatus responses c j j0).lastJob = some job
      ∧ (job.status = .completed →
          (pollJobStatus responses c j j0).finalIngestState = .completed
          ∧ (pollJobStatus responses c j j0).completions = [job])
      ∧ (job.status = .failed →
          (pollJobStatus responses c j j0).completions = [job]
          ∧ (pollJobStatus responses c j j0).ingestError
              = some (job.message.getD "Data ingestion failed."))
      ∧ (job.message = none → job.status = .failed →
          (pollJobStatus responses c j j0).ingestError = some "Data ingestion failed.")
      ∧ (terminalJobContract job →
          job.summary.isSome = true
          ∨ ∃ m, (pollJobStatus responses c j j0).ingestError = some m ∧ m ≠ "") := by
  have hpre' : ∀ i, i < k → nonTermOk responses (0 + i) := fun i hi => by
    rw [Nat.zero_add]; exact hpre i hi
  have hterm' : responses (0 + k) = .ok job := by rwa [Nat.zero_add]
  have base := pollFrom_terminal responses c j job k 12 0 j0 hk hpre' hterm' hst
  simp only [pollJobStatus]
  refine ⟨base.1, base.2.1, fun hcmp => ⟨(base.2.2.2.1 hcmp).1, base.2.2.1⟩,
    fun hfl => ⟨base.2.2.1, (base.2.2.2.2 hfl).2⟩, fun hm hfl => ?_, fun hcon => ?_⟩
  · rw [(base.2.2.2.2 hfl).2, hm]
    rfl
  · cases hc : job.status with
    | pending => rw [hc] at hst; simp [JobStatus.isTerminal] at hst
    | running => rw [hc] at hst; simp [JobStatus.isTerminal] at hst
    | completed => exact Or.inl (hcon.1 hc)
    | failed =>
        refine Or.inr ?_
        have herr := (base.2.2.2.2 hc).2
        have hmsg := hcon.2 hc
        cases hm : job.message with
        | none =>
            refine ⟨"Data ingestion failed.", ?_, by decide⟩
            rw [herr, hm]
            rfl
        | some m =>
            refine ⟨m, ?_, ?_⟩
            · rw [herr, hm]
              rfl
            · intro hme
              rw [hm, hme] at hmsg
              exact hmsg rfl

/-- A concrete empty ingestion summary. -/
def summaryEmptyW : IngestionSummary :=
  { record_count := some 0, schema_fields := [], sample_records := []
    numeric_summary := [], schema_details := [], categorical_summary := []
    descriptive_stats := [], numeric_histograms := [], visualizations := none }

/-- A concrete completed job snapshot carrying a summary. -/
def jobDoneW : IngestionJobResponse :=
  { job_id := "job-1", connection_id := "conn-1", status := .completed
    created_at := "2024-01-01T00:00:00Z", started_at := some "2024-01-01T00:00:01Z"
    finished_at := some "2024-01-01T00:00:02Z", message := none, errors := []
    summary := some summaryEmptyW }

/-- A poll oracle whose first snapshot is already terminal. -/
def respDoneW : Nat → PollResult := fun _ => .ok jobDoneW

theorem pollLoop_stops_at_first_terminal_witness :
    ((0 : Nat) < 12 ∧ respDoneW 0 = .ok jobDoneW ∧ jobDoneW.status.isTerminal = true)
    ∧ ((pollJobStatus respDoneW "conn-1" "job-1" none).events
          = List.flatten (List.replicate 1
              [ClientEvent.delay 750, ClientEvent.request (getStatusReq "conn-1" "job-1")])
        ∧ (pollJobStatus respDoneW "conn-1" "job-1" none).finalIngestState = .completed
        ∧ (pollJobStatus respDoneW "conn-1" "job-1" none).completions = [jobDoneW]) :=
  have hbig := pollLoop_stops_at_first_terminal respDoneW "conn-1" "job-1" none 0 jobDoneW
    (by decide) (fun i hi => absurd hi (by omega)) rfl rfl
  ⟨⟨by decide, rfl, rfl⟩, ⟨hbig.1, (hbig.2.2.1 rfl).1, (hbig.2.2.1 rfl).2⟩⟩

/-- Claim C4: every HTTP request the polling loop issues is the GET of the
job-status endpoint for the polled connection and job; when every attempt
sees a non-terminal snapshot the loop merely sets the local timeout state,
so no cancellation (or any other) request is ever sent to the server. -/
theorem pollLoop_only_status_gets (responses : Nat → PollResult)
    (c j : String) (j0 : Option IngestionJobResponse) :
    (∀ r, ClientEvent.request r ∈ (pollJobStatus responses c j j0).events →
        r = getStatusReq c j ∧ r.method = .get)
    ∧ ((∀ i, i < 12 → nonTermOk responses i) →
        (pollJobStatus responses c j j0).finalIngestState = .timeout) := by
  constructor
  · intro r hr
    have := pollFrom_requests responses c j 12 0 j0 r hr
    exact ⟨this, by rw [this]; rfl⟩
  · intro h
    exact (pollLoop_twelve_attempts_then_timeout responses c j j0 h).2.1

theorem pollLoop_only_status_gets_witness :
    (ClientEvent.request (getStatusReq "conn-1" "job-1")
        ∈ (pollJobStatus respPendingW "conn-1" "job-1" none).events
      ∧ getStatusReq "conn-1" "job-1" = getStatusReq "conn-1" "job-1"
      ∧ (getStatusReq "conn-1" "job-1").method = .get)
    ∧ (pollJobStatus respPendingW "conn-1" "job-1" none).finalIngestState = .timeout :=
  have hmem : ClientEvent.request (getStatusReq "conn-1" "job-1")
      ∈ (pollJobStatus respPendingW "conn-1" "job-1" none).events := by decide
  have happ := pollLoop_only_status_gets respPendingW "conn-1" "job-1" none
  ⟨⟨hmem, (happ.1 _ hmem).1, (happ.1 _ hmem).2⟩,
    happ.2 (fun _ _ => ⟨jobPendingW, rfl, rfl⟩)⟩

/-- Claim C6: with no saved connection id, handleIngestion fails locally
with an error message and issues no request at all; with a saved id, every
ingestion-start request in its trace is the POST to the ingest endpoint of
that connection with body force_refresh set to false (all other requests
are the polling GETs). -/
theorem ingestion_start_request_shape (startResult : StartResult)
    (responses : Nat → PollResult) :
    (handleIngestion none startResult responses
        = { events := []
            finalIngestState := .failed
            ingestError := some "Save the connection before running ingestion."
            lastJob := none
            completions := [] })
    ∧ (∀ cid : String, ∀ r : HttpRequest,
        ClientEvent.request r ∈ (handleIngestion (some cid) startResult responses).events →
        (∀ c', r.endpoint = .ingestStart c' →
          c' = cid ∧ r = ⟨.post, .ingestStart cid, some (.forceRefresh false)⟩)) := by
  refine ⟨rfl, fun cid r hr c' hep => ?_⟩
  cases startResult with
  | httpErrorDetail d =>
      simp [handleIngestion] at hr
      rw [hr] at hep
      injection hep with h1
      subst h1
      exact ⟨rfl, hr⟩
  | exn m =>
      simp [handleIngestion] at hr
      rw [hr] at hep
      injection hep with h1
      subst h1
      exact ⟨rfl, hr⟩
  | ok job =>
      simp only [handleIngestion, List.mem_cons] at hr
      rcases hr with h | h
      · injection h with h1
        subst h1
        injection hep with h2
        exact ⟨h2.symm, rfl⟩
      · have := pollFrom_requests responses cid job.job_id 12 0 (some job) r h
        rw [this] at hep
        cases hep

theorem ingestion_start_request_shape_witness :
    (handleIngestion none (.ok jobPendingW) respPendingW
        = { events := []
            finalIngestState := .failed
            ingestError := some "Save the connection before running ingestion."
            lastJob := none
            completions := [] })
    ∧ (ClientEvent.request ⟨.post, .ingestStart "conn-1", some (.forceRefresh false)⟩
          ∈ (handleIngestion (some "conn-1") (.ok jobPendingW) respPendingW).events
        ∧ "conn-1" = "conn-1"
        ∧ (⟨.post, .ingestStart "conn-1", some (.forceRefresh false)⟩ : HttpRequest)
            = ⟨.post, .ingestStart "conn-1", some (.forceRefresh false)⟩) :=
  have happ := ingestion_start_request_shape (.ok jobPendingW) respPendingW
  have hmem : ClientEvent.request ⟨.post, .ingestStart "conn-1", some (.forceRefresh false)⟩
      ∈ (handleIngestion (some "conn-1") (.ok jobPendingW) respPendingW).events := by decide
  ⟨happ.1, hmem, (happ.2 "conn-1" _ hmem "conn-1" rfl).1, (happ.2 "conn-1" _ hmem "conn-1" rfl).2⟩

/-! ### Visualization preset recommendation (visualization-presets) -/

/-- The three preset chart types. -/
inductive PresetType
  | numeric
  | categorical
  | timeseries
  deriving DecidableEq, BEq

/-- A recommended visualization preset. -/
structure VisualizationPreset where
  id : String
  label : String
  description : String
  fields : List String
  type : PresetType
  deriving DecidableEq, BEq

/-- createNumericPreset. -/
def createNumericPreset (field : String) (_summary : NumericSummary) : VisualizationPreset :=
  { id := "numeric-" ++ field
    label := field ++ " distribution"
    description := "Visualize the numeric distribution using histogram or line chart."
    fields := [field]
    type := .numeric }

/-- createCategoricalPreset. -/
def createCategoricalPreset (fields : List String) : VisualizationPreset :=
  { id := "categorical-" ++ String.intercalate "-" fields
    label := "Category frequency"
    description := "Create a bar chart showing the most common categorical values."
    fields := fields
    type := .categorical }

/-- createTimeSeriesPreset. -/
def createTimeSeriesPreset (field : String) : VisualizationPreset :=
  { id := "timeseries-" ++ field
    label := field ++ " time series"
    description := "Plot the time-based trend for the selected field."
    fields := [field]
    type := .timeseries }

/-- isLikelyTimestamp: a string whose Date.parse result is finite.  The
parameter dp stands for the JavaScript Date.parse function, returning the
parsed epoch value when finite and none when NaN. -/
def isLikelyTimestampB (dp : String → Option Int) : JsonVal → Bool
  | .vStr s => (dp s).isSome
  | _ => false

/-- collectTimestampFields: keys of the first sample record whose value
looks like a timestamp, in that record's key order. -/
def collectTimestampFields (dp : String → Option Int) (summary : IngestionSummary) :
    List String :=
  match summary.sample_records with
  | [] => []
  | record :: _ =>
      (record.filter (fun kv => isLikelyTimestampB dp kv.2)).map Prod.fst

/-- collectCategoricalFields: keys of the first sample record holding a
string that does not look like a timestamp, in that record's key order. -/
def collectCategoricalFields (dp : String → Option Int) (summary : IngestionSummary) :
    List String :=
  match summary.sample_records with
  | [] => []
  | record :: _ =>
      (record.filter (fun kv =>
        (match kv.2 with | .vStr _ => true | _ => false)
          && !isLikelyTimestampB dp kv.2)).map Prod.fst

/-- recommendPresets: numeric presets per numeric_summary entry, then one
categorical preset over the first up-to-two categorical fields when any
exist, then one time-series preset per timestamp field. -/
def recommendPresets (dp : String → Option Int) :
    Option IngestionSummary → List VisualizationPreset
  | none => []
  | some summary =>
      let numericP := summary.numeric_summary.map (fun e => createNumericPreset e.1 e.2)
      let categorical := (collectCategoricalFields dp summary).take 2
      let catP := if 0 < categorical.length then [createCategoricalPreset categorical] else []
      let temporalP := (collectTimestampFields dp summary).map createTimeSeriesPreset
      numericP ++ catP ++ temporalP

/-- Bool test that a preset has the given type. -/
def typeIs (t : PresetType) (p : VisualizationPreset) : Bool :=
  match p.type, t with
  | .numeric, .numeric => true
  | .categorical, .categorical => true
  | .timeseries, .timeseries => true
  | _, _ => false

/-- Helper: numeric presets are exactly the numeric-typed ones. -/
theorem numericPresets_filter (l : List (String × NumericSummary)) :
    (l.map (fun e => createNumericPreset e.1 e.2)).filter (typeIs .numeric)
        = l.map (fun e => createNumericPreset e.1 e.2)
      ∧ (l.map (fun e => createNumericPreset e.1 e.2)).filter (typeIs .categorical) = []
      ∧ (l.map (fun e => createNumericPreset e.1 e.2)).filter (typeIs .timeseries) = [] := by
  induction l with
  | nil => simp
  | cons e rest ih =>
      refine ⟨?_, ?_, ?_⟩
      · simp only [List.map_cons, List.filter_cons,
          show typeIs .numeric (createNumericPreset e.1 e.2) = true from rfl, if_true]
        rw [ih.1]
      · simp only [List.map_cons, List.filter_cons,
          show typeIs .categorical (createNumericPreset e.1 e.2) = false from rfl,
          Bool.false_eq_true, if_false]
        exact ih.2.1
      · simp only [List.map_cons, List.filter_cons,
          show typeIs .timeseries (createNumericPreset e.1 e.2) = false from rfl,
          Bool.false_eq_true, if_false]
        exact ih.2.2

/-- Helper: time-series presets are exactly the timeseries-typed ones. -/
theorem timePresets_filter (l : List String) :
    (l.map createTimeSeriesPreset).filter (typeIs .numeric) = []
      ∧ (l.map createTimeSeriesPreset).filter (typeIs .categorical) = []
      ∧ (l.map createTimeSeriesPreset).filter (typeIs .timeseries)
          = l.map createTimeSeriesPreset := by
  induction l with
  | nil => simp
  | cons c rest ih =>
      refine ⟨?_, ?_, ?_⟩
      · simp only [List.map_cons, List.filter_cons,
          show typeIs .numeric (createTimeSeriesPreset c) = false from rfl,
          Bool.false_eq_true, if_false]
        exact ih.1
      · simp only [List.map_cons, List.filter_cons,
          show typeIs .categorical (createTimeSeriesPreset c) = false from rfl,
          Bool.false_eq_true, if_false]
        exact ih.2.1
      · simp only [List.map_cons, List.filter_cons,
          show typeIs .timeseries (createTimeSeriesPreset c) = true from rfl, if_true]
        rw [ih.2.2]

/-- Claim C2 (amended form): the recommendation output consists of exactly
one distribution preset per numeric_summary entry (in order, each listing
just its own column), one frequency preset listing exactly the first
up-to-two categorical fields of the first sample record (in that record's
key order) when at least one exists, and one time-series preset per
timestamp field of the first sample record, each listing only that field. -/
theorem recommendPresets_structure (dp : String → Option Int) (s : IngestionSummary) :
    ((recommendPresets dp (some s)).filter (typeIs .numeric)).map (fun p => p.fields)
        = s.numeric_summary.map (fun e => [e.1])
    ∧ ((recommendPresets dp (some s)).filter (typeIs .categorical)).map (fun p => p.fields)
        = (if 0 < ((collectCategoricalFields dp s).take 2).length
            then [(collectCategoricalFields dp s).take 2] else [])
    ∧ ((recommendPresets dp (some s)).filter (typeIs .timeseries)).map (fun p => p.fields)
        = (collectTimestampFields dp s).map (fun c => [c]) := by
  have hn := numericPresets_filter s.numeric_summary
  have ht := timePresets_filter (collectTimestampFields dp s)
  by_cases hcat : 0 < ((collectCategoricalFields dp s).take 2).length
  · simp only [recommendPresets, if_pos hcat, List.filter_append,
      hn.1, hn.2.1, hn.2.2, ht.1, ht.2.1, ht.2.2, List.map_append]
    refine ⟨?_, ?_, ?_⟩
    · simp [List.filter_cons, typeIs, createCategoricalPreset, List.map_map,
        createNumericPreset]
    · simp [List.filter_cons, typeIs, createCategoricalPreset]
    · simp [List.filter_cons, typeIs, createCategoricalPreset, List.map_map,
        createTimeSeriesPreset]
  · simp only [recommendPresets, if_neg hcat, List.filter_append,
      hn.1, hn.2.1, hn.2.2, ht.1, ht.2.1, ht.2.2, List.map_append]
    refine ⟨?_, ?_, ?_⟩
    · simp [List.map_map, createNumericPreset]
    · simp
    · simp [List.map_map, createTimeSeriesPreset]

/-- Numeric columns present in the first sample record (claim-side notion
of the numeric columns present in the same sample). -/
def sampleNumericCols (s : IngestionSummary) : List String :=
  match s.sample_records with
  | [] => []
  | record :: _ =>
      (record.filter (fun kv => match kv.2 with | .vNum _ => true | _ => false)).map Prod.fst

/-- Claim-side notion of the categorical columns taken in schema order:
schema_fields whose first-sample value is a non-timestamp string. -/
def claimSchemaCatCols (dp : String → Option Int) (s : IngestionSummary) : List String :=
  s.schema_fields.filter (fun f =>
    match s.sample_records with
    | [] => false
    | record :: _ =>
        match record.lookup f with
        | some (.vStr str) => !(dp str).isSome
        | _ => false)

/-- Claim C2 rendered literally (second definition following the claim's
words, for comparison with the code): one distribution preset per
numeric_summary column; the first one-to-two categorical columns in
schema order yield a frequency preset; every sampled timestamp column
yields a time-series preset paired with the numeric columns of the same
sample. -/
def presetsClaimHolds (dp : String → Option Int) (s : IngestionSummary) : Bool :=
  let out := recommendPresets dp (some s)
  (s.numeric_summary.all (fun e =>
      (out.filter (fun p => typeIs .numeric p && p.fields == [e.1])).length == 1))
  && (let cats := (claimSchemaCatCols dp s).take 2
      cats.isEmpty || out.any (fun p => typeIs .categorical p && p.fields == cats))
  && ((collectTimestampFields dp s).all (fun c =>
      out.any (fun p =>
        typeIs .timeseries p && p.fields.contains c
          && (sampleNumericCols s).all (fun n => p.fields.contains n))))

/-- Date.parse stand-in for the counterexample: two known date strings. -/
def dpEx : String → Option Int := fun str =>
  if str = "2024-01-01" then some 0 else if str = "2024-01-02" then some 1 else none

/-- Concrete summary for the C2 counterexample: one numeric column, two
categorical columns whose first-record key order differs from schema
order, and one timestamp column alongside the numeric column. -/
def sEx : IngestionSummary :=
  { record_count := some 2
    schema_fields := ["num", "b", "a", "t"]
    sample_records :=
      [[("t", .vStr "2024-01-01"), ("num", .vNum 1), ("a", .vStr "x"), ("b", .vStr "y")],
        [("t", .vStr "2024-01-02"), ("num", .vNum 2), ("a", .vStr "z"), ("b", .vStr "y")]]
    numeric_summary := [("num", ⟨some 1, some 0, some 2⟩)]
    schema_details := []
    categorical_summary := []
    descriptive_stats := []
    numeric_histograms := []
    visualizations := none }

/-- Claim C2 counterexample: on sEx the code's recommendations violate the
claim as stated - the frequency preset lists the first record's key order
(a then b), not the schema order (b then a), and the time-series preset
for column t lists only t, not the numeric column num sampled alongside
it. -/
theorem recommendPresets_claim_false :
    presetsClaimHolds dpEx sEx = false
    ∧ (claimSchemaCatCols dpEx sEx).take 2 = ["b", "a"]
    ∧ ((recommendPresets dpEx (some sEx)).filter (typeIs .categorical)).map
        (fun p => p.fields) = [["a", "b"]]
    ∧ ((recommendPresets dpEx (some sEx)).filter (typeIs .timeseries)).map
        (fun p => p.fields) = [["t"]]
    ∧ sampleNumericCols sEx = ["num"] := by
  refine ⟨?_, ?_, ?_, ?_, ?_⟩ <;> decide

/-! ### Chart rendering (visualization-preview) -/

/-- A value inside one built time-series row object: the parsed date or a
copied numeric field.  The source builds rows as the object literal with
date first and the numeric fields spread over it, so a numeric field that
is itself named date overwrites the parsed date. -/
inductive RowVal
  | rDate (d : Int)
  | rNum (q : ℚ)
  deriving DecidableEq

/-- One built time-series row: an ordered JavaScript object. -/
abbrev ChartRow := List (String × RowVal)

/-- The essence of the chart element VisualizationPreview builds: which
recharts chart is produced and with which data. -/
inductive Chart
  | lineNumeric (data : List (Nat × ℚ))
  | pieCat (data : List (String × Nat))
  | barCat (data : List (String × Nat))
  | lineTime (data : List ChartRow) (numericKeys : List String)
  deriving DecidableEq

/-- Numeric-preset data: sample records enumerated by index, keeping
entries whose field value is a number, or a string that the JavaScript
Number conversion (parameter jn, none for NaN) turns into a number. -/
def numericData (jn : String → Option ℚ) (field : String) (records : List RecordJ) :
    List (Nat × ℚ) :=
  records.enum.filterMap (fun ir =>
    match ir.2.lookup field with
    | some (.vNum q) => some (ir.1, q)
    | some (.vStr str) =>
        match jn str with
        | some q => some (ir.1, q)
        | none => none
    | _ => none)

/-- Categorical label of one record: its string values at the preset
fields joined with the separator. -/
def catLabel (fields : List String) (record : RecordJ) : String :=
  String.intercalate " · "
    (fields.filterMap (fun f =>
      match record.lookup f with
      | some (.vStr str) => some str
      | _ => none))

/-- Insertion-ordered counting map update, as a JavaScript Map behaves. -/
def bumpCount (label : String) : List (String × Nat) → List (String × Nat)
  | [] => [(label, 1)]
  | (k, v) :: rest =>
      if k = label then (k, v + 1) :: rest else (k, v) :: bumpCount label rest

/-- Categorical-preset data: per-label counts over the sample records,
skipping empty labels, in first-seen label order. -/
def categoricalCounts (fields : List String) (records : List RecordJ) :
    List (String × Nat) :=
  records.foldl (fun acc record =>
    let label := catLabel fields record
    if label = "" then acc else bumpCount label acc) []

/-- JavaScript object property assignment: overwrite in place when the key
exists, append otherwise. -/
def setKey (k : String) (v : RowVal) : ChartRow → ChartRow
  | [] => [(k, v)]
  | (k', v') :: rest =>
      if k' = k then (k', v) :: rest else (k', v') :: setKey k v rest

/-- One time-series row as the source builds it: the object starting with
the parsed date under the key date, then each numeric field spread over
it, so a numeric field named date overwrites the parsed date. -/
def buildTimeRow (d : Int) (numericFields : List (String × ℚ)) : ChartRow :=
  numericFields.foldl (fun acc kv => setKey kv.1 (.rNum kv.2) acc) [("date", .rDate d)]

/-- Time-series rows before sorting: records whose preset field parses as
a date (parameter dp stands for Date.parse) and which carry at least one
numeric field. -/
def timeRows (dp : String → Option Int) (field : String) (records : List RecordJ) :
    List ChartRow :=
  records.filterMap (fun record =>
    let dateOpt := match record.lookup field with
      | some (.vStr str) => dp str
      | _ => none
    let numericFields := record.filterMap (fun kv =>
      match kv.2 with
      | .vNum q => some (kv.1, q)
      | _ => none)
    match dateOpt with
    | none => none
    | some d => if numericFields.length = 0 then none else some (buildTimeRow d numericFields))

/-- Whether a built row's date slot was overwritten by a numeric field:
on such a row the source's getTime and toLocaleString calls throw a
TypeError. -/
def rowHasNumericDate (row : ChartRow) : Bool :=
  match row.lookup "date" with
  | some (.rDate _) => false
  | _ => true

/-- The date key of a built row (0 is never reached on rows that survive
the TypeError check). -/
def rowDateKey (row : ChartRow) : Int :=
  match row.lookup "date" with
  | some (.rDate d) => d
  | _ => 0

/-- Stable insertion into a date-sorted list: an equal-dated row stays
after the rows already placed, as JavaScript's stable sort orders ties. -/
def insertByDate (row : ChartRow) : List ChartRow → List ChartRow
  | [] => [row]
  | r :: rest =>
      if rowDateKey row < rowDateKey r then row :: r :: rest
      else r :: insertByDate row rest

/-- Stable sort of time rows by ascending date: rows are inserted in their
original order, so equal-dated rows keep that order. -/
def sortByDate (rows : List ChartRow) : List ChartRow :=
  rows.foldl (fun acc row => insertByDate row acc) []

/-- The schema fields that are numeric in at least one time row. -/
def tsNumericKeys (schemaFields : List String) (data : List ChartRow) : List String :=
  schemaFields.filter (fun k => data.any (fun row =>
    match row.lookup k with
    | some (.rNum _) => true
    | _ => false))

/-- The chart computation of VisualizationPreview for one preset, with a
thrown TypeError modelled as the error case: in the time-series branch a
row whose date slot holds a number makes the sort comparator (or the
dateLabel map) throw. -/
def chartForE (dp : String → Option Int) (jn : String → Option ℚ)
    (summary : IngestionSummary) (preset : VisualizationPreset) :
    Except Unit (Option Chart) :=
  match preset.type, preset.fields with
  | .numeric, field :: _ =>
      let data := numericData jn field summary.sample_records
      if data.length < 2 then .ok none else .ok (some (.lineNumeric data))
  | .numeric, [] => .ok none
  | .categorical, _ =>
      let data := categoricalCounts preset.fields summary.sample_records
      if data.length = 0 then .ok none
      else if data.length ≤ 5 then .ok (some (.pieCat data))
      else .ok (some (.barCat data))
  | .timeseries, field :: _ =>
      let rows := timeRows dp field summary.sample_records
      if rows.any rowHasNumericDate then .error ()
      else
        let data := sortByDate rows
        let numericKeys := tsNumericKeys summary.schema_fields data
        if data.length < 2 ∨ numericKeys.length = 0 then .ok none
        else .ok (some (.lineTime data numericKeys))
  | .timeseries, [] => .ok none

/-- The dashboard renders one preview per recommended preset; the app has
no error boundary, so an exception thrown while rendering any preview
aborts the whole render and no chart at all is shown. -/
def renderChartsE (dp : String → Option Int) (jn : String → Option ℚ)
    (summary : IngestionSummary) (presets : List VisualizationPreset) :
    Except Unit (List (Option Chart)) :=
  presets.foldr (fun p acc =>
    match chartForE dp jn summary p, acc with
    | .ok c, .ok cs => .ok (c :: cs)
    | .error e, _ => .error e
    | .ok _, .error e => .error e) (.ok [])

/-- Trivial Date.parse stand-in for witnesses: nothing parses. -/
def dpW : String → Option Int := fun _ => none

/-- Trivial Number conversion stand-in for witnesses: everything is NaN. -/
def jnW : String → Option ℚ := fun _ => none

/-- Concrete summary used by later witnesses: the numeric column x has a
single parseable value, the categorical column c has two. -/
def sW5 : IngestionSummary :=
  { record_count := some 2
    schema_fields := ["x", "c"]
    sample_records := [[("x", .vNum 1), ("c", .vStr "u")], [("c", .vStr "u")]]
    numeric_summary := [("x", ⟨some 1, some 1, some 1⟩)]
    schema_details := []
    categorical_summary := []
    descriptive_stats := []
    numeric_histograms := []
    visualizations := none }

/-- Summary exhibiting the date-collision bug: a timestamp column t next
to a numeric column literally named date, plus a categorical column c. -/
def sBug : IngestionSummary :=
  { record_count := some 2
    schema_fields := ["t", "date", "c"]
    sample_records :=
      [[("t", .vStr "2024-01-01"), ("date", .vNum 5), ("c", .vStr "u")],
        [("t", .vStr "2024-01-02"), ("date", .vNum 6), ("c", .vStr "u")]]
    numeric_summary := []
    schema_details := []
    categorical_summary := []
    descriptive_stats := []
    numeric_histograms := []
    visualizations := none }

/-- Claim C5: the claim states that a failing preset produces no chart for
that preset only while every other recommended preset still renders.  The
code evaluated at sBug shows otherwise: its own recommended presets are
the categorical preset over c and the time-series preset over t; rendered
alone the categorical preset yields a pie chart, but the time-series
preview throws (the numeric field named date overwrites the parsed date
in the row spread, so getTime is called on a number) and, with no error
boundary, the whole render aborts and the categorical chart is lost too. -/
theorem charts_abort_on_numeric_date_field :
    recommendPresets dpEx (some sBug)
        = [createCategoricalPreset ["c"], createTimeSeriesPreset "t"]
    ∧ chartForE dpEx jnW sBug (createCategoricalPreset ["c"])
        = .ok (some (.pieCat [("u", 2)]))
    ∧ chartForE dpEx jnW sBug (createTimeSeriesPreset "t") = .error ()
    ∧ renderChartsE dpEx jnW sBug (recommendPresets dpEx (some sBug)) = .error () := by
  exact ⟨by decide, rfl, rfl, rfl⟩

/-! ### Dashboard numeric summary (connections-dashboard) -/

/-- One row of the dashboard's numeric display. -/
structure NumericDisplay where
  field : String
  mean : Option ℚ
  minimum : Option ℚ
  maximum : Option ℚ
  meanPercent : Option ℚ
  deriving DecidableEq

/-- summarizeNumeric on one numeric_summary entry: meanPercent is null
when any statistic is null or the range is empty, otherwise the mean's
position in the range clamped to the 0-100 band. -/
def summarizeEntry (field : String) (stats : NumericSummary) : NumericDisplay :=
  match stats.minimum, stats.maximum, stats.mean with
  | some mn, some mx, some me =>
      if mx = mn then
        { field := field, mean := stats.mean, minimum := stats.minimum
          maximum := stats.maximum, meanPercent := none }
      else
        { field := field, mean := some me, minimum := some mn, maximum := some mx
          meanPercent := some (min 100 (max 0 ((me - mn) / (mx - mn) * 100))) }
  | _, _, _ =>
      { field := field, mean := stats.mean, minimum := stats.minimum
        maximum := stats.maximum, meanPercent := none }

/-- summarizeNumeric over the whole summary. -/
def summarizeNumeric : Option IngestionSummary → List NumericDisplay
  | none => []
  | some s => s.numeric_summary.map (fun e => summarizeEntry e.1 e.2)

/-- Claim C8: summarizeNumeric is total by construction and never divides
by zero; each returned entry has meanPercent null exactly when mean,
minimum or maximum is null or maximum equals minimum, and otherwise
meanPercent lies in the closed band from 0 to 100, even when the mean is
outside the min-max range. -/
theorem summarizeNumeric_meanPercent_bounds (os : Option IngestionSummary)
    (e : NumericDisplay) (he : e ∈ summarizeNumeric os) :
    (e.meanPercent = none ↔
      (e.mean = none ∨ e.minimum = none ∨ e.maximum = none ∨ e.maximum = e.minimum))
    ∧ (∀ v, e.meanPercent = some v → 0 ≤ v ∧ v ≤ 100) := by
  cases os with
  | none => simp [summarizeNumeric] at he
  | some s =>
      simp only [summarizeNumeric, List.mem_map] at he
      obtain ⟨entry, _, hev⟩ := he
      subst hev
      rcases entry with ⟨field, stats⟩
      rcases stats with ⟨mean, minimum, maximum⟩
      cases mean with
      | none =>
          cases minimum <;> cases maximum <;>
            simp [summarizeEntry]
      | some me =>
          cases minimum with
          | none => cases maximum <;> simp [summarizeEntry]
          | some mn =>
              cases maximum with
              | none => simp [summarizeEntry]
              | some mx =>
                  by_cases hmm : mx = mn
                  · subst hmm
                    simp [summarizeEntry]
                  · constructor
                    · simp [summarizeEntry, if_neg hmm, hmm]
                    · intro v hv
                      simp only [summarizeEntry, if_neg hmm] at hv
                      injection hv with hv
                      subst hv
                      constructor
                      · exact le_min (by norm_num) (le_max_left 0 _)
                      · exact min_le_left 100 _

/-- Concrete entry produced by summarizeNumeric on sW5. -/
def displayW : NumericDisplay :=
  { field := "x", mean := some 1, minimum := some 1, maximum := some 1
    meanPercent := none }

theorem summarizeNumeric_meanPercent_bounds_witness :
    displayW ∈ summarizeNumeric (some sW5)
    ∧ (displayW.meanPercent = none ↔
        (displayW.mean = none ∨ displayW.minimum = none ∨ displayW.maximum = none
          ∨ displayW.maximum = displayW.minimum)) :=
  have hmem : displayW ∈ summarizeNumeric (some sW5) := by decide
  ⟨hmem, (summarizeNumeric_meanPercent_bounds (some sW5) displayW hmem).1⟩

/-! ### Dashboard sample table (connections-dashboard) -/

/-- How one cell value is rendered: null and undefined become a dash,
dates their ISO string, other scalars their JavaScript string form (the
parameter numStr stands for the String(...) conversion of numbers). -/
def renderCell (numStr : ℚ → String) : Option JsonVal → String
  | none => "-"
  | some .vNull => "-"
  | some (.vDate iso) => iso
  | some (.vBool true) => "true"
  | some (.vBool false) => "false"
  | some (.vNum q) => numStr q
  | some (.vStr str) => str

/-- The sample table: headers plus stringified rows. -/
structure SampleTable where
  headers : List String
  rows : List (List String)
  deriving DecidableEq

/-- buildSampleRows: headers from the keys of the first sample record,
rows from the first five records projected onto those headers. -/
def buildSampleRows (numStr : ℚ → String) : Option IngestionSummary → SampleTable
  | none => { headers := [], rows := [] }
  | some s =>
      match s.sample_records with
      | [] => { headers := [], rows := [] }
      | r0 :: rest =>
          let headers := r0.map Prod.fst
          { headers := headers
            rows := ((r0 :: rest).take 5).map (fun record =>
              headers.map (fun h => renderCell numStr (record.lookup h))) }

/-- Claim C9: with non-empty sample_records the table's headers are
exactly the keys of the first record, its rows are the first at most five
records projected onto those headers with null and undefined rendered as
a dash, and a field absent from the first record never appears among the
headers. -/
theorem sampleTable_from_first_record (numStr : ℚ → String) (s : IngestionSummary)
    (r0 : RecordJ) (rest : List RecordJ) (h : s.sample_records = r0 :: rest) :
    (buildSampleRows numStr (some s)).headers = r0.map Prod.fst
    ∧ (buildSampleRows numStr (some s)).rows
        = (s.sample_records.take 5).map (fun record =>
            (r0.map Prod.fst).map (fun hd => renderCell numStr (record.lookup hd)))
    ∧ (buildSampleRows numStr (some s)).rows.length = min 5 s.sample_records.length
    ∧ renderCell numStr none = "-"
    ∧ renderCell numStr (some .vNull) = "-"
    ∧ (∀ f, f ∉ r0.map Prod.fst → f ∉ (buildSampleRows numStr (some s)).headers) := by
  refine ⟨?_, ?_, ?_, rfl, rfl, ?_⟩
  · simp [buildSampleRows, h]
  · simp [buildSampleRows, h]
  · simp [buildSampleRows, h, List.length_take]
    omega
  · intro f hf
    simpa [buildSampleRows, h] using hf

/-- A fixed number-to-string conversion for witnesses. -/
def numStrW : ℚ → String := fun _ => "0"

theorem sampleTable_from_first_record_witness :
    sW5.sample_records = [("x", .vNum 1), ("c", .vStr "u")] :: [[("c", .vStr "u")]]
    ∧ (buildSampleRows numStrW (some sW5)).headers = ["x", "c"]
    ∧ (buildSampleRows numStrW (some sW5)).rows = [["0", "u"], ["-", "u"]] :=
  have happ := sampleTable_from_first_record numStrW sW5
    [("x", .vNum 1), ("c", .vStr "u")] [[("c", .vStr "u")]] rfl
  ⟨rfl, by rw [happ.1]; rfl, by rw [happ.2.1]; rfl⟩

/-! ### Saved connection list and history modal -/

/-- Whether the first character list is a prefix of the second. -/
def isPrefixL : List Char → List Char → Bool
  | [], _ => true
  | _ :: _, [] => false
  | a :: as, b :: bs => a == b && isPrefixL as bs

/-- Whether the second character list occurs inside the first. -/
def hasSub (pat : List Char) : List Char → Bool
  | [] => isPrefixL pat []
  | c :: rest => isPrefixL pat (c :: rest) || hasSub pat rest

/-- JavaScript String.prototype.includes. -/
def strContains (s pat : String) : Bool :=
  hasSub pat.data s.data

/-- filterConnections: all connections when the trimmed filter text is
empty, otherwise those whose lowercased portal name or dataset id contains
the lowercased filter text (the parameters trimF and lower stand for the
JavaScript trim and toLowerCase). -/
def filterConnections (trimF lower : String → String)
    (connections : List ConnectionResponse) (filterText : String) :
    List ConnectionResponse :=
  if trimF filterText = "" then connections
  else
    let keyword := lower filterText
    connections.filter (fun c =>
      strContains (lower c.portal_name) keyword
        || strContains (lower c.dataset_id) keyword)

/-- The dashboard's saved-connection list: only the first connection. -/
def savedConnectionList (connections : List ConnectionResponse) :
    List ConnectionResponse :=
  match connections with
  | [] => []
  | c :: _ => [c]

/-- What the history modal body shows. -/
inductive HistoryDisplay
  | noPrevious
  | showList (cs : List ConnectionResponse)
  deriving DecidableEq

/-- The history modal: the no-previous message when at most one
connection exists, otherwise the filtered tail of the connection list. -/
def historyModalDisplay (trimF lower : String → String)
    (connections : List ConnectionResponse) (filterText : String) : HistoryDisplay :=
  if connections.length ≤ 1 then .noPrevious
  else .showList (filterConnections trimF lower (connections.drop 1) filterText)

/-- Claim C10: the saved list shows exactly the first connection, the
history modal shows only connections from index 1 on (filtered by the
case-insensitive containment test, all of them when the trimmed filter is
blank), the no-previous message appears exactly when at most one
connection exists, and for duplicate-free lists no connection is in both
lists. -/
theorem dashboard_history_split (trimF lower : String → String)
    (conns : List ConnectionResponse) (ft : String) :
    (∀ c rest, conns = c :: rest → savedConnectionList conns = [c])
    ∧ (historyModalDisplay trimF lower conns ft = .noPrevious ↔ conns.length ≤ 1)
    ∧ (trimF ft = "" → filterConnections trimF lower (conns.drop 1) ft = conns.drop 1)
    ∧ (trimF ft ≠ "" → filterConnections trimF lower (conns.drop 1) ft
        = (conns.drop 1).filter (fun c =>
            strContains (lower c.portal_name) (lower ft)
              || strContains (lower c.dataset_id) (lower ft)))
    ∧ (∀ c, c ∈ filterConnections trimF lower (conns.drop 1) ft → c ∈ conns.drop 1)
    ∧ (conns.Nodup → ∀ c, c ∈ savedConnectionList conns →
        c ∉ filterConnections trimF lower (conns.drop 1) ft) := by
  refine ⟨fun c rest hc => by rw [hc]; rfl, ?_, fun hb => by simp [filterConnections, hb],
    fun hb => by simp [filterConnections, hb], fun c hc => ?_, fun hnd c hc => ?_⟩
  · constructor
    · intro h
      by_contra hlen
      simp [historyModalDisplay, hlen] at h
    · intro h
      simp [historyModalDisplay, h]
  · by_cases hb : trimF ft = ""
    · simpa [filterConnections, hb] using hc
    · simp only [filterConnections, if_neg hb] at hc
      exact List.mem_of_mem_filter hc
  · cases conns with
    | nil => simp [savedConnectionList] at hc
    | cons c0 rest =>
        simp only [savedConnectionList, List.mem_singleton] at hc
        subst hc
        intro hmem
        have hrest : c ∈ rest := by
          have hsub : c ∈ (c :: rest).drop 1 → c ∈ rest := by simp
          apply hsub
          by_cases hb : trimF ft = ""
          · simpa [filterConnections, hb] using hmem
          · simp only [filterConnections, if_neg hb] at hmem
            exact List.mem_of_mem_filter hmem
        exact (List.nodup_cons.mp hnd).1 hrest

/-- Identity stand-in for toLowerCase (and trim) in witnesses. -/
def lowerW : String → String := fun s => s

/-- Concrete connections for the C10 witness. -/
def connAW : ConnectionResponse :=
  { id := "c-1", portal_name := "Portal A", dataset_id := "ds-a"
    last_ingested_at := none, last_ingestion_summary := none }

def connBW : ConnectionResponse :=
  { id := "c-2", portal_name := "Portal B", dataset_id := "ds-b"
    last_ingested_at := none, last_ingestion_summary := none }

def connsW : List ConnectionResponse := [connAW, connBW]

theorem dashboard_history_split_witness :
    savedConnectionList connsW = [connAW]
    ∧ filterConnections lowerW lowerW (connsW.drop 1) "" = connsW.drop 1
    ∧ connAW ∉ filterConnections lowerW lowerW (connsW.drop 1) "" :=
  have happ := dashboard_history_split lowerW lowerW connsW ""
  ⟨happ.1 connAW [connBW] rfl, happ.2.2.1 rfl,
    happ.2.2.2.2.2 (by decide) connAW (by decide)⟩

/-! ### Job Orchestrator state machine -/

/-- Modelled from the spec: the Job Orchestrator's transition relation
(the orchestrator implementation is not under src): pending to running on
worker pickup, running to completed or failed, and nothing else. -/
def jobStep : JobStatus → JobStatus → Bool
  | .pending, .running => true
  | .running, .completed => true
  | .running, .failed => true
  | _, _ => false

/-- A sequence of poll observations starting from a given status: each
observation repeats the previous status or follows one transition. -/
def obsChainB : JobStatus → List JobStatus → Bool
  | _, [] => true
  | s, t :: rest => (s == t || jobStep s t) && obsChainB t rest

/-- Claim C7: transitions follow pending to running to completed-or-failed
only, no transition leaves a terminal state, and along any observation
chain a status once seen as completed stays completed. -/
theorem jobStatus_monotonic :
    (∀ s t, jobStep s t = true →
      (s = .pending ∧ t = .running)
      ∨ (s = .running ∧ (t = .completed ∨ t = .failed)))
    ∧ (∀ t u, t.isTerminal = true → jobStep t u = false)
    ∧ (∀ l, obsChainB .completed l = true → ∀ x ∈ l, x = .completed) := by
  refine ⟨fun s t h => ?_, fun t u ht => ?_, fun l => ?_⟩
  · cases s <;> cases t <;> simp_all [jobStep]
  · cases t <;> cases u <;> simp_all [JobStatus.isTerminal, jobStep]
  · induction l with
    | nil => intro _ x hx; cases hx
    | cons t rest ih =>
        intro h x hx
        simp only [obsChainB, Bool.and_eq_true, Bool.or_eq_true] at h
        have ht : t = .completed := by
          rcases h.1 with h1 | h1
          · exact (beq_iff_eq.mp h1).symm
          · cases t <;> simp [jobStep] at h1 ⊢
        subst ht
        rcases List.mem_cons.mp hx with hx | hx
        · exact hx
        · exact ih h.2 x hx

theorem jobStatus_monotonic_witness :
    (JobStatus.completed.isTerminal = true ∧ jobStep .completed .running = false)
    ∧ (obsChainB .completed [.completed, .completed] = true
        ∧ JobStatus.completed ∈ [JobStatus.completed, JobStatus.completed]
        ∧ JobStatus.completed = JobStatus.completed) :=
  ⟨⟨rfl, jobStatus_monotonic.2.1 .completed .running rfl⟩,
    ⟨rfl, by decide,
      jobStatus_monotonic.2.2 [.completed, .completed] rfl .completed (by decide)⟩⟩
